import Mathlib

/-! Verification of the usage-tracking scripts: the hook-configuration merge
algorithm of `setup-usage-tracking.py` and the event ingestor / session
correlator of `usage-tracker.py`.  JSON documents are modelled by the
inductive `JVal`; Python dicts are association lists with unique keys,
read and written through `jget`/`jset` (first occurrence wins, as for
Python dicts).  Timestamps are modelled as an integer count of whole
seconds supplied by the environment; every `datetime.now()` call inside a
single hook invocation observes the same reading. -/

inductive JVal where
  | null
  | bool (b : Bool)
  | num (n : Int)
  | str (s : String)
  | arr (items : List JVal)
  | obj (fields : List (String × JVal))
deriving Repr

abbrev JObj := List (String × JVal)

/-- Python dict read: value of the first field named `k`, if any. -/
def jget : JObj → String → Option JVal
  | [], _ => none
  | (k0, v0) :: rest, k => if k0 == k then some v0 else jget rest k

/-- Python dict write: replace the first field named `k`, else append. -/
def jset : JObj → String → JVal → JObj
  | [], k, v => [(k, v)]
  | (k0, v0) :: rest, k, v =>
      if k0 == k then (k, v) :: rest else (k0, v0) :: jset rest k v

/-- Character-list prefix test (kernel-reducible replacement for the
built-in substring primitives). -/
def listIsPfx : List Char → List Char → Bool
  | [], _ => true
  | _ :: _, [] => false
  | a :: as, b :: bs => a == b && listIsPfx as bs

/-- Character-list infix test. -/
def listHasInfix : List Char → List Char → Bool
  | pat, [] => pat.isEmpty
  | pat, c :: rest => listIsPfx pat (c :: rest) || listHasInfix pat rest

/-- Python `pat in hay` for strings. -/
def strContains (hay pat : String) : Bool := listHasInfix pat.toList hay.toList

/-- Python `s.startswith(p)`. -/
def strStartsWith (s p : String) : Bool := listIsPfx p.toList s.toList

/-- JSON string escaping used by `json.dumps` (quote, backslash and the
common control characters; other characters are emitted verbatim). -/
def jsonEscChar (c : Char) : List Char :=
  if c == Char.ofNat 34 then [Char.ofNat 92, Char.ofNat 34]
  else if c == Char.ofNat 92 then [Char.ofNat 92, Char.ofNat 92]
  else if c == Char.ofNat 10 then [Char.ofNat 92, 'n']
  else if c == Char.ofNat 9 then [Char.ofNat 92, 't']
  else if c == Char.ofNat 13 then [Char.ofNat 92, 'r']
  else [c]

def jsonEscape (s : String) : String :=
  String.mk (s.toList.foldr (fun c acc => jsonEscChar c ++ acc) [])

def jsonQuote (s : String) : String := "\"" ++ jsonEscape s ++ "\""

mutual
/-- Serialization of `json.dumps` with its default separators. -/
def dumps : JVal → String
  | .null => "null"
  | .bool true => "true"
  | .bool false => "false"
  | .num n => toString n
  | .str s => jsonQuote s
  | .arr xs => "[" ++ dumpsArr xs ++ "]"
  | .obj fs => "\x7b" ++ dumpsObj fs ++ "\x7d"

def dumpsArr : List JVal → String
  | [] => ""
  | [x] => dumps x
  | x :: y :: rest => dumps x ++ ", " ++ dumpsArr (y :: rest)

def dumpsObj : List (String × JVal) → String
  | [] => ""
  | [(k, v)] => jsonQuote k ++ ": " ++ dumps v
  | (k, v) :: q :: rest => jsonQuote k ++ ": " ++ dumps v ++ ", " ++ dumpsObj (q :: rest)
end

/-- Single-quote character, used by Python `repr` of strings. -/
def pySQuote : Char := Char.ofNat 39

mutual
/-- Python `repr()` of a JSON value; escaping of quotes inside nested
strings is not modelled. -/
def pyRepr : JVal → String
  | .null => "None"
  | .bool true => "True"
  | .bool false => "False"
  | .num n => toString n
  | .str s => String.mk (pySQuote :: s.toList ++ [pySQuote])
  | .arr xs => "[" ++ pyReprArr xs ++ "]"
  | .obj fs => "\x7b" ++ pyReprObj fs ++ "\x7d"

def pyReprArr : List JVal → String
  | [] => ""
  | [x] => pyRepr x
  | x :: y :: rest => pyRepr x ++ ", " ++ pyReprArr (y :: rest)

def pyReprObj : List (String × JVal) → String
  | [] => ""
  | [(k, v)] => String.mk (pySQuote :: k.toList ++ [pySQuote]) ++ ": " ++ pyRepr v
  | (k, v) :: q :: rest =>
      String.mk (pySQuote :: k.toList ++ [pySQuote]) ++ ": " ++ pyRepr v ++ ", " ++
        pyReprObj (q :: rest)
end

/-- Python `str()` of a JSON value, as used by the merger's stale-entry
check, `str(hook.get('command', ''))`. -/
def pyStr : JVal → String
  | .str s => s
  | v => pyRepr v

/-! The config merger: `merge_hook` of `setup-usage-tracking.py`.  An
entry of `settings['hooks'][event_name]` is recognized when it is a dict
whose `hooks` field is a list. -/

/-- Binding list of a recognized group: `entry.get('hooks')` when `entry`
is a dict and the field is a list. -/
def entryHooksList : JVal → Option (List JVal)
  | JVal.obj h =>
      match jget h "hooks" with
      | some (JVal.arr hl) => some hl
      | _ => none
  | _ => none

/-- Line 54: some binding is a command binding for exactly `command`. -/
def hookHasExact (hl : List JVal) (command : String) : Bool :=
  hl.any fun hook =>
    match hook with
    | JVal.obj h =>
        (match jget h "type" with
         | some (JVal.str t) => t == "command"
         | _ => false)
        && (match jget h "command" with
            | some (JVal.str c) => c == command
            | _ => false)
    | _ => false

/-- Line 66: some binding is a command binding whose command text mentions
the tracker script and this event's `CLAUDE_HOOK_TYPE` tag. -/
def hookIsStale (hl : List JVal) (event_name : String) : Bool :=
  hl.any fun hook =>
    match hook with
    | JVal.obj h =>
        (match jget h "type" with
         | some (JVal.str t) => t == "command"
         | _ => false)
        && strContains (pyStr ((jget h "command").getD (JVal.str ""))) "usage-tracker.py"
        && strContains (pyStr ((jget h "command").getD (JVal.str "")))
            ("CLAUDE_HOOK_TYPE=" ++ event_name)
    | _ => false

/-- Whether the scan loop keeps an entry: unrecognized entries pass
through; a recognized group survives when it exact-matches the command or
is not a stale tracker group for this event. -/
def keepEntry (command event_name : String) (entry : JVal) : Bool :=
  match entryHooksList entry with
  | none => true
  | some hl => hookHasExact hl command || ! hookIsStale hl event_name

/-- Whether an entry makes the loop set `already_present`. -/
def entryExact (command : String) (entry : JVal) : Bool :=
  match entryHooksList entry with
  | none => false
  | some hl => hookHasExact hl command

/-- The group appended at line 77 when the command is not yet present. -/
def newGroup (command : String) : JVal :=
  JVal.obj [("matcher", JVal.str ""),
            ("hooks", JVal.arr [JVal.obj [("type", JVal.str "command"),
                                          ("command", JVal.str command)]])]

/-- The filter-then-append transformation performed on the event's entry
list by the loop of lines 44-87. -/
def mergeResult (existing : List JVal) (event_name command : String) : List JVal :=
  let filtered := existing.filter (keepEntry command event_name)
  if existing.any (entryExact command) then filtered else filtered ++ [newGroup command]

/-- Body of `merge_hook(settings, event_name, command)`, lines 32-89. -/
def merge_hook (settings : JObj) (event_name command : String) : JObj :=
  let settings1 : JObj :=
    match jget settings "hooks" with
    | some (JVal.obj _) => settings
    | _ => jset settings "hooks" (JVal.obj [])
  let hf : JObj :=
    match jget settings1 "hooks" with
    | some (JVal.obj h) => h
    | _ => []
  let existing : List JVal :=
    match jget hf event_name with
    | some (JVal.arr xs) => xs
    | _ => []
  jset settings1 "hooks"
    (JVal.obj (jset hf event_name (JVal.arr (mergeResult existing event_name command))))

theorem jget_jset_same (o : JObj) (k : String) (v : JVal) :
    jget (jset o k v) k = some v := by
  induction o with
  | nil => simp [jget, jset]
  | cons p rest ih =>
      obtain ⟨k0, v0⟩ := p
      by_cases h : k0 = k
      · subst h; simp [jget, jset]
      · simp [jget, jset, h, ih]

theorem jget_jset_ne (o : JObj) (k k2 : String) (v : JVal) (h : k2 ≠ k) :
    jget (jset o k v) k2 = jget o k2 := by
  induction o with
  | nil => simp [jget, jset, Ne.symm h]
  | cons p rest ih =>
      obtain ⟨k0, v0⟩ := p
      by_cases hk : k0 = k
      · subst hk
        simp [jget, jset, Ne.symm h]
      · by_cases hk2 : k0 = k2
        · subst hk2; simp [jget, jset, hk]
        · simp [jget, jset, hk, hk2, ih]

theorem jset_jset_same (o : JObj) (k : String) (v w : JVal) :
    jset (jset o k v) k w = jset o k w := by
  induction o with
  | nil => simp [jset]
  | cons p rest ih =>
      obtain ⟨k0, v0⟩ := p
      by_cases h : k0 = k
      · subst h; simp [jset]
      · simp [jset, h, ih]

theorem keepEntry_newGroup (command event_name : String) :
    keepEntry command event_name (newGroup command) = true := by
  simp [keepEntry, newGroup, entryHooksList, hookHasExact, jget, List.any]

theorem entryExact_newGroup (command : String) :
    entryExact command (newGroup command) = true := by
  simp [entryExact, newGroup, entryHooksList, hookHasExact, jget, List.any]

theorem keepEntry_of_entryExact (command event_name : String) (x : JVal)
    (h : entryExact command x = true) : keepEntry command event_name x = true := by
  unfold entryExact at h
  unfold keepEntry
  cases hx : entryHooksList x with
  | none => rfl
  | some hl =>
      rw [hx] at h
      simp only [] at h
      simp [h]

/-- Applying the filter-then-append transformation to its own output is
the identity: every surviving entry is kept again and the appended (or
retained) exact group keeps `already_present` true. -/
theorem mergeResult_fixed (existing : List JVal) (event_name command : String) :
    mergeResult (mergeResult existing event_name command) event_name command =
      mergeResult existing event_name command := by
  set R := mergeResult existing event_name command with hR
  have hkeep : ∀ x ∈ R, keepEntry command event_name x = true := by
    intro x hx
    rw [hR] at hx
    unfold mergeResult at hx
    by_cases hap : existing.any (entryExact command) = true
    · simp only [hap, if_true] at hx
      exact List.of_mem_filter hx
    · simp only [hap, if_false] at hx
      rcases List.mem_append.mp hx with h1 | h2
      · exact List.of_mem_filter h1
      · simp only [List.mem_singleton] at h2
        subst h2
        exact keepEntry_newGroup command event_name
  have hfilter : R.filter (keepEntry command event_name) = R :=
    List.filter_eq_self.mpr hkeep
  have hany : R.any (entryExact command) = true := by
    by_cases hap : existing.any (entryExact command) = true
    · rcases List.any_eq_true.mp hap with ⟨x, hx, hex⟩
      refine List.any_eq_true.mpr ⟨x, ?_, hex⟩
      rw [hR]
      unfold mergeResult
      simp only [hap, if_true]
      exact List.mem_filter.mpr ⟨hx, keepEntry_of_entryExact command event_name x hex⟩
    · refine List.any_eq_true.mpr ⟨newGroup command, ?_, entryExact_newGroup command⟩
      rw [hR]
      unfold mergeResult
      simp [hap]
  unfold mergeResult
  simp [hany, hfilter]

/-- Evaluation of `merge_hook` on a document whose `hooks` key already
holds a dict with a list at `event_name`. -/
theorem merge_hook_on_shaped (s1 : JObj) (H : JObj) (R : List JVal)
    (event_name command : String)
    (h1 : jget s1 "hooks" = some (JVal.obj H))
    (h2 : jget H event_name = some (JVal.arr R)) :
    merge_hook s1 event_name command =
      jset s1 "hooks"
        (JVal.obj (jset H event_name (JVal.arr (mergeResult R event_name command)))) := by
  unfold merge_hook
  simp [h1, h2]

/-- After one merge, the document has the canonical shape: `hooks` maps to
a dict whose `event_name` entry is the merged list. -/
theorem merge_hook_shape (settings : JObj) (event_name command : String) :
    ∃ s1 hf existing,
      merge_hook settings event_name command =
        jset s1 "hooks"
          (JVal.obj (jset hf event_name
            (JVal.arr (mergeResult existing event_name command)))) := by
  unfold merge_hook
  cases hs : jget settings "hooks" with
  | none =>
      exact ⟨jset settings "hooks" (JVal.obj []), [], [], by simp [hs, jget_jset_same, jget]⟩
  | some v =>
      cases v with
      | obj h =>
          refine ⟨settings, h, (match jget h event_name with
                                | some (JVal.arr xs) => xs
                                | _ => []), ?_⟩
          simp [hs]
      | null =>
          exact ⟨jset settings "hooks" (JVal.obj []), [], [], by simp [hs, jget_jset_same, jget]⟩
      | bool b =>
          exact ⟨jset settings "hooks" (JVal.obj []), [], [], by simp [hs, jget_jset_same, jget]⟩
      | num n =>
          exact ⟨jset settings "hooks" (JVal.obj []), [], [], by simp [hs, jget_jset_same, jget]⟩
      | str s =>
          exact ⟨jset settings "hooks" (JVal.obj []), [], [], by simp [hs, jget_jset_same, jget]⟩
      | arr xs =>
          exact ⟨jset settings "hooks" (JVal.obj []), [], [], by simp [hs, jget_jset_same, jget]⟩

/-- C2: `merge_hook` applied twice with the same `(event_name, command)`
equals `merge_hook` applied once — one application reaches a fixed point,
so the second application is a no-op on the whole document. -/
theorem c2_merge_idempotent (settings : JObj) (event_name command : String) :
    merge_hook (merge_hook settings event_name command) event_name command =
      merge_hook settings event_name command := by
  obtain ⟨s1, hf, existing, heq⟩ := merge_hook_shape settings event_name command
  have hgetH : jget (merge_hook settings event_name command) "hooks" =
      some (JVal.obj (jset hf event_name
        (JVal.arr (mergeResult existing event_name command)))) := by
    rw [heq]; exact jget_jset_same s1 "hooks" _
  have hHe : jget (jset hf event_name (JVal.arr (mergeResult existing event_name command)))
      event_name = some (JVal.arr (mergeResult existing event_name command)) :=
    jget_jset_same hf event_name _
  rw [merge_hook_on_shaped _ _ _ event_name command hgetH hHe,
    mergeResult_fixed existing event_name command,
    jset_jset_same hf event_name, heq, jset_jset_same]

theorem mergeResult_nil (event_name command : String) :
    mergeResult [] event_name command = [newGroup command] := rfl

/-- C3: when the event's entry list holds a stale tracker group (a
recognized group with a command binding mentioning the tracker script and
this event's marker, and no exact binding for the new command) together
with an unrelated recognized group `G`, the merge drops the stale group,
keeps `G`, appends one fresh group for the new command, and touches no
other event name and no other key of the document. -/
theorem c3_stale_replaced (settings h : JObj) (event_name cmdB : String)
    (staleE G : JVal) (sl gl : List JVal)
    (hhooks : jget settings "hooks" = some (JVal.obj h))
    (hexisting : jget h event_name = some (JVal.arr [staleE, G]) ∨
                 jget h event_name = some (JVal.arr [G, staleE]))
    (hstale_rec : entryHooksList staleE = some sl)
    (hstale_stale : hookIsStale sl event_name = true)
    (hstale_noexact : hookHasExact sl cmdB = false)
    (hG_rec : entryHooksList G = some gl)
    (hG_notstale : hookIsStale gl event_name = false)
    (hG_noexact : hookHasExact gl cmdB = false) :
    merge_hook settings event_name cmdB =
      jset settings "hooks"
        (JVal.obj (jset h event_name (JVal.arr [G, newGroup cmdB])))
    ∧ (∀ k, k ≠ event_name →
        jget (jset h event_name (JVal.arr [G, newGroup cmdB])) k = jget h k)
    ∧ (∀ k, k ≠ "hooks" →
        jget (merge_hook settings event_name cmdB) k = jget settings k) := by
  have hkeepS : keepEntry cmdB event_name staleE = false := by
    unfold keepEntry
    rw [hstale_rec]
    simp [hstale_noexact, hstale_stale]
  have hkeepG : keepEntry cmdB event_name G = true := by
    unfold keepEntry
    rw [hG_rec]
    simp [hG_notstale]
  have hexS : entryExact cmdB staleE = false := by
    unfold entryExact; rw [hstale_rec]; simp [hstale_noexact]
  have hexG : entryExact cmdB G = false := by
    unfold entryExact; rw [hG_rec]; simp [hG_noexact]
  have hmr : ∀ ex : List JVal, ex = [staleE, G] ∨ ex = [G, staleE] →
      mergeResult ex event_name cmdB = [G, newGroup cmdB] := by
    intro ex hex
    rcases hex with rfl | rfl <;>
      simp [mergeResult, List.filter, List.any, hkeepS, hkeepG, hexS, hexG]
  have hmain : merge_hook settings event_name cmdB =
      jset settings "hooks" (JVal.obj (jset h event_name (JVal.arr [G, newGroup cmdB]))) := by
    rcases hexisting with hex | hex
    · rw [merge_hook_on_shaped settings h [staleE, G] event_name cmdB hhooks hex,
        hmr [staleE, G] (Or.inl rfl)]
    · rw [merge_hook_on_shaped settings h [G, staleE] event_name cmdB hhooks hex,
        hmr [G, staleE] (Or.inr rfl)]
  refine ⟨hmain, ?_, ?_⟩
  · intro k hk; exact jget_jset_ne h event_name k (JVal.arr [G, newGroup cmdB]) hk
  · intro k hk; rw [hmain]; exact jget_jset_ne settings "hooks" k _ hk

/-- C10: the merge is total on arbitrary document shapes.  Its output
always has a dict at `hooks` whose `event_name` entry is a list; a
non-dict `hooks` value is replaced with a fresh dict holding only the
merged event; unrecognized entries always pass the scan; a non-list
event value is treated as an empty sequence, so the merged event holds
exactly the one fresh tracker group. -/
theorem c10_merge_shape_safety (settings : JObj) (event_name command : String) :
    (∃ hf, jget (merge_hook settings event_name command) "hooks" = some (JVal.obj hf) ∧
       ∃ xs, jget hf event_name = some (JVal.arr xs))
    ∧ (∀ entry, entryHooksList entry = none → keepEntry command event_name entry = true)
    ∧ ((∀ h2, jget settings "hooks" ≠ some (JVal.obj h2)) →
        merge_hook settings event_name command =
          jset settings "hooks" (JVal.obj [(event_name, JVal.arr [newGroup command])]))
    ∧ (∀ h2, jget settings "hooks" = some (JVal.obj h2) →
        (∀ xs, jget h2 event_name ≠ some (JVal.arr xs)) →
        merge_hook settings event_name command =
          jset settings "hooks"
            (JVal.obj (jset h2 event_name (JVal.arr [newGroup command])))) := by
  refine ⟨?_, ?_, ?_, ?_⟩
  · obtain ⟨s1, hf, existing, heq⟩ := merge_hook_shape settings event_name command
    refine ⟨jset hf event_name (JVal.arr (mergeResult existing event_name command)),
      ?_, mergeResult existing event_name command, jget_jset_same hf event_name _⟩
    rw [heq]; exact jget_jset_same s1 "hooks" _
  · intro entry he
    unfold keepEntry
    rw [he]
  · intro hno
    unfold merge_hook
    cases hs : jget settings "hooks" with
    | none => simp [hs, jget_jset_same, jget, mergeResult_nil, jset, jset_jset_same]
    | some v =>
        cases v with
        | obj h2 => exact absurd hs (hno h2)
        | null => simp [hs, jget_jset_same, jget, mergeResult_nil, jset, jset_jset_same]
        | bool b => simp [hs, jget_jset_same, jget, mergeResult_nil, jset, jset_jset_same]
        | num n => simp [hs, jget_jset_same, jget, mergeResult_nil, jset, jset_jset_same]
        | str s => simp [hs, jget_jset_same, jget, mergeResult_nil, jset, jset_jset_same]
        | arr xs => simp [hs, jget_jset_same, jget, mergeResult_nil, jset, jset_jset_same]
  · intro h2 hs hne
    have hex : (match jget h2 event_name with
                | some (JVal.arr xs) => xs
                | _ => ([] : List JVal)) = [] := by
      cases hx : jget h2 event_name with
      | none => rfl
      | some w =>
          cases w with
          | arr xs => exact absurd hx (hne xs)
          | null => rfl
          | bool b => rfl
          | num n => rfl
          | str s => rfl
          | obj fs => rfl
    unfold merge_hook
    simp [hs, hex, mergeResult_nil]

def c3cmdOld : String :=
  "CLAUDE_HOOK_TYPE=Stop python3 /home/u/.claude/scripts/usage-tracker.py"

def c3cmdNew : String :=
  "CLAUDE_HOOK_TYPE=Stop python3 /opt/dotfiles/claude/scripts/usage-tracker.py"

def c3staleGroup : JVal :=
  JVal.obj [("matcher", JVal.str ""),
            ("hooks", JVal.arr [JVal.obj [("type", JVal.str "command"),
                                          ("command", JVal.str c3cmdOld)]])]

def c3manualGroup : JVal :=
  JVal.obj [("matcher", JVal.str "Bash"),
            ("hooks", JVal.arr [JVal.obj [("type", JVal.str "command"),
                                          ("command", JVal.str "echo done")]])]

def c3settings : JObj :=
  [("hooks", JVal.obj [("Stop", JVal.arr [c3staleGroup, c3manualGroup]),
                       ("Notification", JVal.arr [])]),
   ("permissions", JVal.str "keep")]

theorem c3_witness :
    merge_hook c3settings "Stop" c3cmdNew =
      jset c3settings "hooks"
        (JVal.obj (jset [("Stop", JVal.arr [c3staleGroup, c3manualGroup]),
                         ("Notification", JVal.arr [])] "Stop"
          (JVal.arr [c3manualGroup, newGroup c3cmdNew]))) :=
  (c3_stale_replaced c3settings
      [("Stop", JVal.arr [c3staleGroup, c3manualGroup]), ("Notification", JVal.arr [])]
      "Stop" c3cmdNew c3staleGroup c3manualGroup
      [JVal.obj [("type", JVal.str "command"), ("command", JVal.str c3cmdOld)]]
      [JVal.obj [("type", JVal.str "command"), ("command", JVal.str "echo done")]]
      rfl (Or.inl rfl) rfl (by decide) (by decide) rfl (by decide) (by decide)).1

theorem c10_witness :
    merge_hook [("hooks", JVal.num 3)] "Stop" "cmd" =
      jset [("hooks", JVal.num 3)] "hooks"
        (JVal.obj [("Stop", JVal.arr [newGroup "cmd"])]) :=
  (c10_merge_shape_safety [("hooks", JVal.num 3)] "Stop" "cmd").2.2.1
    (by intro h2 hcontra; simp [jget] at hcontra)

/-! The event ingestor and session correlator: `usage-tracker.py`.
The SQLite store is modelled by `DB`, a record of the four tables;
schema creation is the identity on this model.  Each of
`log_tool_usage`, `log_session_event` and the inline notification insert
is one SQLite connection whose changes become visible only at its final
`commit`; an exception inside it loses all of its changes, which the
`Except Unit DB` results capture.  Binding a payload value as a SQL
parameter raises `sqlite3.InterfaceError` when the value is a list or a
dict (`sqlBindable` is false), aborting the transaction like any other
exception.  `HookEnv.failTx` injects a storage fault into the n-th
database transaction of the invocation (index 0 is `init_database`),
modelling an unavailable or locked store. -/

/-- SQLite `=` between two stored scalar values; `NULL = NULL` does not
match.  Stored values are always `sqlBindable`, since binding a container
aborts the inserting transaction. -/
def sqlEq : JVal → JVal → Bool
  | .str a, .str b => a == b
  | .num a, .num b => a == b
  | .bool a, .bool b => a == b
  | _, _ => false

/-- Whether Python's sqlite3 accepts the value as a bound parameter:
None, bool (an int subclass), int and str bind; a list or dict raises
`sqlite3.InterfaceError`. -/
def sqlBindable : JVal → Bool
  | .arr _ => false
  | .obj _ => false
  | _ => true

/-- Line 83: categorize_tool, the static name-to-category table with the
MCP prefix rule checked first. -/
def categorize_tool (tool_name : String) : String :=
  if strStartsWith tool_name "mcp__" then "mcp"
  else if tool_name == "Read" then "file_ops"
  else if tool_name == "Write" then "file_ops"
  else if tool_name == "Edit" then "file_ops"
  else if tool_name == "MultiEdit" then "file_ops"
  else if tool_name == "NotebookRead" then "file_ops"
  else if tool_name == "NotebookEdit" then "file_ops"
  else if tool_name == "Bash" then "shell"
  else if tool_name == "Task" then "agent"
  else if tool_name == "Glob" then "search"
  else if tool_name == "Grep" then "search"
  else if tool_name == "LS" then "search"
  else if tool_name == "WebFetch" then "web"
  else if tool_name == "WebSearch" then "web"
  else if tool_name == "TodoRead" then "planning"
  else if tool_name == "TodoWrite" then "planning"
  else if tool_name == "exit_plan_mode" then "planning"
  else "other"

structure SessionRow where
  session_id : JVal
  project_path : String
  start_time : Int
  end_time : Option Int
  duration_seconds : Option Int
  transcript_path : JVal

structure ToolUsageRow where
  session_id : JVal
  timestamp : Int
  tool_name : String
  tool_category : String
  input_size : Nat
  output_size : Nat
  project_path : String

structure CommandRow where
  session_id : JVal
  timestamp : Int
  command : JVal
  description : JVal
  project_path : String

structure EventRow where
  session_id : JVal
  timestamp : Int
  event_type : String
  event_data : String
  project_path : String

structure DB where
  sessions : List SessionRow
  tool_usage : List ToolUsageRow
  commands : List CommandRow
  events : List EventRow

def emptyDB : DB := ⟨[], [], [], []⟩

/-- Lines 110-150: `log_tool_usage(data)`.  One connection: the usage
insert and the optional Bash command insert commit together; a `KeyError`
on a missing payload field, an `AttributeError` from a non-string tool
name (`.startswith`) or a non-dict `tool_input` (`.get`), and an
`InterfaceError` from binding a container `session_id`, `command` or
`description` all abort the whole transaction before its commit. -/
def usageRow (now : Int) (cwd : String) (data : JObj) (sid : JVal)
    (tn : String) : ToolUsageRow :=
  { session_id := sid, timestamp := now, tool_name := tn,
    tool_category := categorize_tool tn,
    input_size := (dumps ((jget data "tool_input").getD (JVal.obj []))).length,
    output_size := (if (jget data "tool_response").isSome
        then dumps ((jget data "tool_response").getD (JVal.obj []))
        else "\x7b\x7d").length,
    project_path := cwd }

def log_tool_usage (now : Int) (cwd : String) (data : JObj) (db : DB) :
    Except Unit DB :=
  match jget data "session_id" with
  | none => Except.error ()
  | some sid =>
      match jget data "tool_name" with
      | some (JVal.str tn) =>
          if sqlBindable sid then
            if tn == "Bash" && (jget data "tool_input").isSome then
              match jget data "tool_input" with
              | some (JVal.obj ti) =>
                  if sqlBindable ((jget ti "command").getD (JVal.str "")) &&
                     sqlBindable ((jget ti "description").getD (JVal.str "")) then
                    Except.ok { db with
                      tool_usage := db.tool_usage ++ [usageRow now cwd data sid tn],
                      commands := db.commands ++
                        [{ session_id := sid, timestamp := now,
                           command := (jget ti "command").getD (JVal.str ""),
                           description := (jget ti "description").getD (JVal.str ""),
                           project_path := cwd }] }
                  else Except.error ()
              | _ => Except.error ()
            else Except.ok { db with
              tool_usage := db.tool_usage ++ [usageRow now cwd data sid tn] }
          else Except.error ()
      | _ => Except.error ()

/-- The row inserted by the `start` branch of `log_session_event` for a
previously unseen session id. -/
def openedRow (now : Int) (cwd : String) (data : JObj) (sid : JVal) : SessionRow :=
  { session_id := sid, project_path := cwd, start_time := now,
    end_time := none, duration_seconds := none,
    transcript_path := (jget data "transcript_path").getD (JVal.str "") }

/-- The per-row effect of the `stop`/`subagent_stop` UPDATE of lines
174-183: matching rows get `end_time = now` and `duration_seconds`
recomputed from the unchanged `start_time`; the julianday arithmetic is
exact at the whole-second granularity of this model, and the
`CAST ... AS INTEGER` truncation is the identity on it. -/
def closeUpd (sid : JVal) (now : Int) (r : SessionRow) : SessionRow :=
  if sqlEq r.session_id sid then
    { r with end_time := some now, duration_seconds := some (now - r.start_time) }
  else r

/-- The generic event row inserted into `events`, carrying the full
serialized payload. -/
def genericEventRow (now : Int) (cwd : String) (data : JObj) (sid : JVal)
    (et : String) : EventRow :=
  { session_id := sid, timestamp := now, event_type := et,
    event_data := dumps (JVal.obj data), project_path := cwd }

/-- Lines 152-199: `log_session_event(data, event_type)`.  One
connection; the branch effect and the trailing generic event insert
commit together (the event append is written into each success leaf
here, matching the single commit at line 198).  A missing `session_id`
raises before anything commits; every branch binds `session_id`, so a
container id raises `InterfaceError` with nothing committed, and the
`start` branch's INSERT additionally binds `transcript_path`, so a fresh
session with a container transcript also commits nothing. -/
def log_session_event (now : Int) (cwd : String) (data : JObj) (event_type : String)
    (db : DB) : Except Unit DB :=
  match jget data "session_id" with
  | none => Except.error ()
  | some sid =>
      if sqlBindable sid then
        if event_type == "start" then
          if db.sessions.any (fun r => sqlEq r.session_id sid) then
            Except.ok { db with events := db.events ++
              [genericEventRow now cwd data sid event_type] }
          else if sqlBindable ((jget data "transcript_path").getD (JVal.str "")) then
            Except.ok { db with
              sessions := db.sessions ++ [openedRow now cwd data sid],
              events := db.events ++ [genericEventRow now cwd data sid event_type] }
          else Except.error ()
        else if event_type == "stop" || event_type == "subagent_stop" then
          Except.ok { db with
            sessions := db.sessions.map (closeUpd sid now),
            events := db.events ++ [genericEventRow now cwd data sid event_type] }
        else Except.ok { db with events := db.events ++
          [genericEventRow now cwd data sid event_type] }
      else Except.error ()

/-- Lines 230-246: the inline insert of the `Notification` branch.  The
INSERT binds `session_id`, so a container id raises `InterfaceError` and
inserts nothing. -/
def notification_event (now : Int) (cwd : String) (data : JObj) (db : DB) :
    Except Unit DB :=
  match jget data "session_id" with
  | none => Except.error ()
  | some sid =>
      if sqlBindable sid then
        Except.ok { db with events := db.events ++
          [genericEventRow now cwd data sid "notification"] }
      else Except.error ()

/-- Lines 210-217: the resolved hook type.  `hook_type` starts as the
`CLAUDE_HOOK_TYPE` environment value (empty string when unset) and is
overwritten by shape inference whenever the payload carries both
`tool_name` and `tool_input`. -/
def resolveHookType (envHint : String) (data : JObj) : String :=
  if (jget data "tool_name").isSome && (jget data "tool_input").isSome then
    if (jget data "tool_response").isSome then "PostToolUse" else "PreToolUse"
  else envHint

/-- One hook process invocation's environment: the `CLAUDE_HOOK_TYPE`
variable, the parsed stdin payload (`none` models a `json.load` failure),
the clock reading, the working directory, the optional index of a failing
database transaction, and whether the backup-log append succeeds. -/
structure HookEnv where
  hookTypeEnv : String
  stdin : Option JObj
  now : Int
  cwd : String
  failTx : Option Nat
  logOk : Bool

/-- One line of the daily backup jsonl file, line 253. -/
structure LogLine where
  timestamp : Int
  hook_type : String
  project : String
  data : JObj

/-- Wrap one database transaction with the fault injector. -/
def txRun (env : HookEnv) (i : Nat) (act : Except Unit DB) : Except Unit DB :=
  if env.failTx == some i then Except.error () else act

/-- Lines 219-246: the dispatch on the resolved hook type.  On error the
carried value is the database as left by the transactions that already
committed. -/
def storePhase (env : HookEnv) (data : JObj) (db : DB) : Except DB DB :=
  let ht := resolveHookType env.hookTypeEnv data
  if ht == "PreToolUse" || ht == "PostToolUse" then
    match txRun env 1 (log_tool_usage env.now env.cwd data db) with
    | Except.error _ => Except.error db
    | Except.ok db1 =>
        match txRun env 2 (log_session_event env.now env.cwd data "start" db1) with
        | Except.error _ => Except.error db1
        | Except.ok db2 => Except.ok db2
  else if ht == "Stop" then
    match txRun env 1 (log_session_event env.now env.cwd data "stop" db) with
    | Except.error _ => Except.error db
    | Except.ok db1 => Except.ok db1
  else if ht == "SubagentStop" then
    match txRun env 1 (log_session_event env.now env.cwd data "subagent_stop" db) with
    | Except.error _ => Except.error db
    | Except.ok db1 => Except.ok db1
  else if ht == "Notification" then
    match txRun env 1 (notification_event env.now env.cwd data db) with
    | Except.error _ => Except.error db
    | Except.ok db1 => Except.ok db1
  else Except.ok db

/-- Lines 201-266: `main()`.  The whole body runs inside one `try`; an
exception anywhere skips the rest (in particular the backup-log append of
lines 248-259) and reaches the handler, which exits with status 0; the
success path also exits with status 0.  The result is the final database,
the final backup log, and the process exit status. -/
def runHook (env : HookEnv) (db : DB) (log : List LogLine) :
    DB × List LogLine × Nat :=
  if env.failTx == some 0 then (db, log, 0)
  else
    match env.stdin with
    | none => (db, log, 0)
    | some data =>
        match storePhase env data db with
        | Except.error dbF => (dbF, log, 0)
        | Except.ok dbF =>
            if env.logOk then
              (dbF, log ++ [{ timestamp := env.now,
                              hook_type := resolveHookType env.hookTypeEnv data,
                              project := env.cwd, data := data }], 0)
            else (dbF, log, 0)

/-- A sequence of independent hook invocations against the same store and
backup log. -/
def runHookSeq : List HookEnv → DB × List LogLine → DB × List LogLine
  | [], p => p
  | e :: rest, p =>
      let r := runHook e p.1 p.2
      runHookSeq rest (r.1, r.2.1)

/-- A payload the tracker can durably record for session `sid`:
`session_id` is the string `sid`; `tool_name` is a string; when it is the
shell tool and `tool_input` is present, `tool_input` is a dict whose
`command` and `description` (defaulting to the empty string) are
bindable; and the `transcript_path` bound by a fresh ensure-open is
bindable.  On any payload outside this set `log_tool_usage` or the
sessions INSERT raises and the affected transaction records nothing. -/
def validToolPayload (data : JObj) (sid : String) : Bool :=
  (match jget data "session_id" with
   | some (JVal.str s) => s == sid
   | _ => false)
  &&
  (match jget data "tool_name" with
   | some (JVal.str tn) =>
       if tn == "Bash" then
         match jget data "tool_input" with
         | some (JVal.obj ti) =>
             sqlBindable ((jget ti "command").getD (JVal.str "")) &&
             sqlBindable ((jget ti "description").getD (JVal.str ""))
         | none => true
         | some _ => false
       else true
   | _ => false)
  &&
  sqlBindable ((jget data "transcript_path").getD (JVal.str ""))

theorem log_tool_usage_err_nosid (now : Int) (cwd : String) (data : JObj) (db : DB)
    (h : jget data "session_id" = none) :
    log_tool_usage now cwd data db = Except.error () := by
  unfold log_tool_usage
  simp [h]

theorem log_session_event_err_nosid (now : Int) (cwd : String) (data : JObj)
    (et : String) (db : DB) (h : jget data "session_id" = none) :
    log_session_event now cwd data et db = Except.error () := by
  unfold log_session_event
  simp [h]

theorem notification_event_err_nosid (now : Int) (cwd : String) (data : JObj) (db : DB)
    (h : jget data "session_id" = none) :
    notification_event now cwd data db = Except.error () := by
  unfold notification_event
  simp [h]

theorem lse_start_existing (now : Int) (cwd : String) (data : JObj) (sidv : JVal)
    (db : DB) (hsid : jget data "session_id" = some sidv)
    (hb : sqlBindable sidv = true)
    (hex : db.sessions.any (fun r => sqlEq r.session_id sidv) = true) :
    log_session_event now cwd data "start" db =
      Except.ok { db with events := db.events ++ [genericEventRow now cwd data sidv "start"] } := by
  unfold log_session_event
  simp [hsid, hb, hex]

theorem lse_start_fresh (now : Int) (cwd : String) (data : JObj) (sidv : JVal)
    (db : DB) (hsid : jget data "session_id" = some sidv)
    (hb : sqlBindable sidv = true)
    (htp : sqlBindable ((jget data "transcript_path").getD (JVal.str "")) = true)
    (hfr : db.sessions.any (fun r => sqlEq r.session_id sidv) = false) :
    log_session_event now cwd data "start" db =
      Except.ok { db with sessions := db.sessions ++ [openedRow now cwd data sidv],
                          events := db.events ++ [genericEventRow now cwd data sidv "start"] } := by
  unfold log_session_event
  simp [hsid, hb, htp, hfr]

theorem lse_close (now : Int) (cwd : String) (data : JObj) (sidv : JVal)
    (db : DB) (et : String) (het : et = "stop" ∨ et = "subagent_stop")
    (hsid : jget data "session_id" = some sidv)
    (hb : sqlBindable sidv = true) :
    log_session_event now cwd data et db =
      Except.ok { db with sessions := db.sessions.map (closeUpd sidv now),
                          events := db.events ++ [genericEventRow now cwd data sidv et] } := by
  unfold log_session_event
  rcases het with rfl | rfl <;> simp [hsid, hb]

theorem valid_sid (data : JObj) (sid : String)
    (h : validToolPayload data sid = true) :
    jget data "session_id" = some (JVal.str sid) := by
  unfold validToolPayload at h
  simp only [Bool.and_eq_true] at h
  obtain ⟨⟨h1, _⟩, _⟩ := h
  cases hx : jget data "session_id" with
  | none => rw [hx] at h1; simp at h1
  | some v =>
      cases v with
      | str s =>
          rw [hx] at h1
          simp only [beq_iff_eq] at h1
          subst h1
          rfl
      | null => rw [hx] at h1; simp at h1
      | bool b => rw [hx] at h1; simp at h1
      | num n => rw [hx] at h1; simp at h1
      | arr xs => rw [hx] at h1; simp at h1
      | obj fs => rw [hx] at h1; simp at h1

theorem valid_transcript (data : JObj) (sid : String)
    (h : validToolPayload data sid = true) :
    sqlBindable ((jget data "transcript_path").getD (JVal.str "")) = true := by
  unfold validToolPayload at h
  simp only [Bool.and_eq_true] at h
  exact h.2

theorem log_tool_usage_ok (now : Int) (cwd : String) (data : JObj) (sid : String)
    (db : DB) (h : validToolPayload data sid = true) :
    ∃ u cs, log_tool_usage now cwd data db =
        Except.ok { db with tool_usage := db.tool_usage ++ [u],
                            commands := db.commands ++ cs } ∧
      u.session_id = JVal.str sid := by
  have hsid := valid_sid data sid h
  have hsb : sqlBindable (JVal.str sid) = true := rfl
  unfold validToolPayload at h
  simp only [Bool.and_eq_true] at h
  obtain ⟨⟨_, h2⟩, _⟩ := h
  unfold log_tool_usage
  rw [hsid]
  cases htn : jget data "tool_name" with
  | none => rw [htn] at h2; simp at h2
  | some v =>
      cases v with
      | str tn =>
          rw [htn] at h2
          by_cases hb : tn = "Bash"
          · subst hb
            simp only [beq_self_eq_true, if_true] at h2
            cases hti : jget data "tool_input" with
            | none =>
                refine ⟨usageRow now cwd data (JVal.str sid) "Bash", [], ?_, rfl⟩
                simp [hti, hsb]
            | some w =>
                cases w with
                | obj ti =>
                    rw [hti] at h2
                    simp only [Bool.and_eq_true] at h2
                    obtain ⟨hc, hd⟩ := h2
                    refine ⟨usageRow now cwd data (JVal.str sid) "Bash",
                      [{ session_id := JVal.str sid, timestamp := now,
                         command := (jget ti "command").getD (JVal.str ""),
                         description := (jget ti "description").getD (JVal.str ""),
                         project_path := cwd }], ?_, rfl⟩
                    simp [hti, hc, hd, hsb]
                | null => rw [hti] at h2; simp at h2
                | bool b => rw [hti] at h2; simp at h2
                | num n => rw [hti] at h2; simp at h2
                | str s => rw [hti] at h2; simp at h2
                | arr xs => rw [hti] at h2; simp at h2
          · have hbb : (tn == "Bash") = false := by simp [hb]
            refine ⟨usageRow now cwd data (JVal.str sid) tn, [], ?_, rfl⟩
            simp [hbb, hsb]
      | null => rw [htn] at h2; simp at h2
      | bool b => rw [htn] at h2; simp at h2
      | num n => rw [htn] at h2; simp at h2
      | arr xs => rw [htn] at h2; simp at h2
      | obj fs => rw [htn] at h2; simp at h2

/-- C4: the close operation (the `stop` branch of `log_session_event`)
sets `end_time = now` and `duration_seconds = now - start_time` on every
row of the session id regardless of its current state, overwrites both on
a re-close so the latest close wins, yields 125 for a session opened at
`T0` and closed at `T0 + 125`, and is a raise-free no-op on the sessions
table when no row matches the id. -/
theorem c4_close_semantics :
    (∀ (now : Int) (cwd : String) (data : JObj) (sidv : JVal) (db : DB),
       jget data "session_id" = some sidv → sqlBindable sidv = true →
       log_session_event now cwd data "stop" db =
         Except.ok { db with sessions := db.sessions.map (closeUpd sidv now),
                             events := db.events ++
                               [genericEventRow now cwd data sidv "stop"] })
    ∧ (∀ (sidv : JVal) (now : Int) (r : SessionRow),
        sqlEq r.session_id sidv = true →
        (closeUpd sidv now r).end_time = some now ∧
        (closeUpd sidv now r).duration_seconds = some (now - r.start_time) ∧
        (closeUpd sidv now r).start_time = r.start_time)
    ∧ (∀ (T1 T2 : Int) (cwd : String) (d1 d2 : JObj) (sidv : JVal) (db : DB),
        T1 < T2 →
        jget d1 "session_id" = some sidv →
        jget d2 "session_id" = some sidv →
        sqlBindable sidv = true →
        ∃ db1 db2,
          log_session_event T1 cwd d1 "stop" db = Except.ok db1 ∧
          log_session_event T2 cwd d2 "stop" db1 = Except.ok db2 ∧
          db2.sessions = db.sessions.map (closeUpd sidv T2))
    ∧ (∀ (T0 : Int) (sidv : JVal) (r : SessionRow),
        sqlEq r.session_id sidv = true → r.start_time = T0 →
        (closeUpd sidv (T0 + 125) r).duration_seconds = some 125)
    ∧ (∀ (now : Int) (cwd : String) (data : JObj) (sidv : JVal) (db : DB),
        jget data "session_id" = some sidv → sqlBindable sidv = true →
        (∀ r ∈ db.sessions, sqlEq r.session_id sidv = false) →
        ∃ db', log_session_event now cwd data "stop" db = Except.ok db' ∧
          db'.sessions = db.sessions) := by
  have hclose := fun now cwd data sidv db hsid hb =>
    lse_close now cwd data sidv db "stop" (Or.inl rfl) hsid hb
  refine ⟨hclose, ?_, ?_, ?_, ?_⟩
  · intro sidv now r hr
    unfold closeUpd
    rw [hr]
    exact ⟨rfl, rfl, rfl⟩
  · intro T1 T2 cwd d1 d2 sidv db _ h1 h2 hb
    refine ⟨_, _, hclose T1 cwd d1 sidv db h1 hb, hclose T2 cwd d2 sidv _ h2 hb, ?_⟩
    show (List.map (closeUpd sidv T1) db.sessions).map (closeUpd sidv T2) =
      db.sessions.map (closeUpd sidv T2)
    rw [List.map_map]
    refine List.map_congr_left ?_
    intro r _
    show closeUpd sidv T2 (closeUpd sidv T1 r) = closeUpd sidv T2 r
    unfold closeUpd
    by_cases hr : sqlEq r.session_id sidv = true
    · simp [hr]
    · simp [hr]
  · intro T0 sidv r hr hst
    unfold closeUpd
    rw [hr]
    simp [hst]
  · intro now cwd data sidv db hsid hb hnone
    refine ⟨_, hclose now cwd data sidv db hsid hb, ?_⟩
    show db.sessions.map (closeUpd sidv now) = db.sessions
    have : ∀ r ∈ db.sessions, closeUpd sidv now r = r := by
      intro r hr
      unfold closeUpd
      rw [hnone r hr]
      simp
    rw [List.map_congr_left this]
    simp

def c4row : SessionRow :=
  { session_id := JVal.str "w4", project_path := "/p", start_time := 100,
    end_time := none, duration_seconds := none, transcript_path := JVal.str "" }

theorem c4_witness :
    (log_session_event 225 "/p" [("session_id", JVal.str "w4")] "stop"
        { emptyDB with sessions := [c4row] } =
      Except.ok { emptyDB with
        sessions := [c4row].map (closeUpd (JVal.str "w4") 225),
        events := [genericEventRow 225 "/p" [("session_id", JVal.str "w4")]
                     (JVal.str "w4") "stop"] })
    ∧ (closeUpd (JVal.str "w4") (100 + 125) c4row).duration_seconds = some 125 :=
  ⟨(c4_close_semantics).1 225 "/p" [("session_id", JVal.str "w4")] (JVal.str "w4")
      { emptyDB with sessions := [c4row] } rfl rfl,
   (c4_close_semantics).2.2.2.1 100 (JVal.str "w4") c4row rfl rfl⟩

theorem runHook_exit (env : HookEnv) (db : DB) (log : List LogLine) :
    (runHook env db log).2.2 = 0 := by
  unfold runHook
  repeat' split
  all_goals rfl

theorem runHook_cases (env : HookEnv) (db : DB) (log : List LogLine) (data : JObj)
    (h0 : env.failTx ≠ some 0) (hstdin : env.stdin = some data) :
    (∀ dbF, storePhase env data db = Except.error dbF →
        runHook env db log = (dbF, log, 0))
    ∧ (∀ dbF, storePhase env data db = Except.ok dbF →
        runHook env db log =
          (dbF,
           (if env.logOk then
              log ++ [{ timestamp := env.now,
                        hook_type := resolveHookType env.hookTypeEnv data,
                        project := env.cwd, data := data }]
            else log), 0)) := by
  have h0b : (env.failTx == some 0) = false := by
    simp [h0]
  constructor
  · intro dbF hsp
    unfold runHook
    rw [h0b, hstdin]
    show (match storePhase env data db with
          | Except.error dbF => (dbF, log, 0)
          | Except.ok dbF =>
              if env.logOk = true then
                (dbF, log ++ [{ timestamp := env.now,
                                hook_type := resolveHookType env.hookTypeEnv data,
                                project := env.cwd, data := data }], 0)
              else (dbF, log, 0)) = (dbF, log, 0)
    rw [hsp]
  · intro dbF hsp
    unfold runHook
    rw [h0b, hstdin]
    show (match storePhase env data db with
          | Except.error dbF => (dbF, log, 0)
          | Except.ok dbF =>
              if env.logOk = true then
                (dbF, log ++ [{ timestamp := env.now,
                                hook_type := resolveHookType env.hookTypeEnv data,
                                project := env.cwd, data := data }], 0)
              else (dbF, log, 0)) =
      (dbF,
       (if env.logOk then
          log ++ [{ timestamp := env.now,
                    hook_type := resolveHookType env.hookTypeEnv data,
                    project := env.cwd, data := data }]
        else log), 0)
    rw [hsp]
    by_cases hl : env.logOk = true
    · simp [hl]
    · simp [hl]

theorem txRun_none (env : HookEnv) (i : Nat) (act : Except Unit DB)
    (h : env.failTx = none) : txRun env i act = act := by
  unfold txRun
  rw [h]
  rfl

theorem storePhase_stop (env : HookEnv) (data : JObj) (db : DB)
    (h : resolveHookType env.hookTypeEnv data = "Stop") :
    storePhase env data db =
      (match txRun env 1 (log_session_event env.now env.cwd data "stop" db) with
       | Except.error _ => Except.error db
       | Except.ok db1 => Except.ok db1) := by
  unfold storePhase
  rw [h]
  rfl

theorem storePhase_sub (env : HookEnv) (data : JObj) (db : DB)
    (h : resolveHookType env.hookTypeEnv data = "SubagentStop") :
    storePhase env data db =
      (match txRun env 1 (log_session_event env.now env.cwd data "subagent_stop" db) with
       | Except.error _ => Except.error db
       | Except.ok db1 => Except.ok db1) := by
  unfold storePhase
  rw [h]
  rfl

theorem storePhase_notif (env : HookEnv) (data : JObj) (db : DB)
    (h : resolveHookType env.hookTypeEnv data = "Notification") :
    storePhase env data db =
      (match txRun env 1 (notification_event env.now env.cwd data db) with
       | Except.error _ => Except.error db
       | Except.ok db1 => Except.ok db1) := by
  unfold storePhase
  rw [h]
  rfl

theorem storePhase_tool (env : HookEnv) (data : JObj) (db : DB)
    (h : resolveHookType env.hookTypeEnv data = "PreToolUse" ∨
         resolveHookType env.hookTypeEnv data = "PostToolUse") :
    storePhase env data db =
      (match txRun env 1 (log_tool_usage env.now env.cwd data db) with
       | Except.error _ => Except.error db
       | Except.ok db1 =>
           match txRun env 2 (log_session_event env.now env.cwd data "start" db1) with
           | Except.error _ => Except.error db1
           | Except.ok db2 => Except.ok db2) := by
  unfold storePhase
  rcases h with h | h <;> rw [h] <;> rfl

theorem storePhase_unknown (env : HookEnv) (data : JObj) (db : DB)
    (h : resolveHookType env.hookTypeEnv data ∉
      (["PreToolUse", "PostToolUse", "Stop", "SubagentStop", "Notification"] :
        List String)) :
    storePhase env data db = Except.ok db := by
  unfold storePhase
  simp only [List.mem_cons, List.not_mem_nil, or_false, not_or] at h
  obtain ⟨h1, h2, h3, h4, h5⟩ := h
  simp [h1, h2, h3, h4, h5]

theorem storePhase_nosid (env : HookEnv) (data : JObj) (db : DB)
    (hnos : jget data "session_id" = none) :
    storePhase env data db = Except.ok db ∨
    storePhase env data db = Except.error db := by
  have htu : txRun env 1 (log_tool_usage env.now env.cwd data db) = Except.error () := by
    unfold txRun
    rw [log_tool_usage_err_nosid env.now env.cwd data db hnos]
    exact ite_self _
  have hse : ∀ et, txRun env 1 (log_session_event env.now env.cwd data et db) =
      Except.error () := by
    intro et
    unfold txRun
    rw [log_session_event_err_nosid env.now env.cwd data et db hnos]
    exact ite_self _
  have hnt : txRun env 1 (notification_event env.now env.cwd data db) =
      Except.error () := by
    unfold txRun
    rw [notification_event_err_nosid env.now env.cwd data db hnos]
    exact ite_self _
  unfold storePhase
  by_cases h1 : (resolveHookType env.hookTypeEnv data == "PreToolUse" ||
      resolveHookType env.hookTypeEnv data == "PostToolUse") = true
  · rw [if_pos h1, htu]
    right
    rfl
  · rw [if_neg h1]
    by_cases h2 : (resolveHookType env.hookTypeEnv data == "Stop") = true
    · rw [if_pos h2, hse "stop"]
      right
      rfl
    · rw [if_neg h2]
      by_cases h3 : (resolveHookType env.hookTypeEnv data == "SubagentStop") = true
      · rw [if_pos h3, hse "subagent_stop"]
        right
        rfl
      · rw [if_neg h3]
        by_cases h4 : (resolveHookType env.hookTypeEnv data == "Notification") = true
        · rw [if_pos h4, hnt]
          right
          rfl
        · rw [if_neg h4]
          left
          rfl

/-- C9: a payload without `session_id` leaves the sessions and tool_usage
tables untouched and the process still exits with status 0; the raised
`KeyError` is swallowed by the top-level handler. -/
theorem c9_missing_session_id (env : HookEnv) (db : DB) (log : List LogLine)
    (data : JObj) (hstdin : env.stdin = some data)
    (hnos : jget data "session_id" = none) :
    (runHook env db log).1.sessions = db.sessions
    ∧ (runHook env db log).1.tool_usage = db.tool_usage
    ∧ (runHook env db log).2.2 = 0 := by
  have hdb : (runHook env db log).1 = db := by
    by_cases h0 : env.failTx = some 0
    · unfold runHook
      rw [h0]
      rfl
    · rcases storePhase_nosid env data db hnos with h | h
      · rw [(runHook_cases env db log data h0 hstdin).2 db h]
      · rw [(runHook_cases env db log data h0 hstdin).1 db h]
  exact ⟨by rw [hdb], by rw [hdb], runHook_exit env db log⟩

def c9data : JObj := [("note", JVal.str "no session")]

def c9env : HookEnv :=
  { hookTypeEnv := "Stop", stdin := some c9data, now := 50, cwd := "/p",
    failTx := none, logOk := true }

theorem c9_witness :
    (runHook c9env emptyDB []).1.sessions = emptyDB.sessions
    ∧ (runHook c9env emptyDB []).1.tool_usage = emptyDB.tool_usage
    ∧ (runHook c9env emptyDB []).2.2 = 0 :=
  c9_missing_session_id c9env emptyDB [] c9data rfl rfl

def c7data : JObj := [("session_id", JVal.str "s7")]

def c7env : HookEnv :=
  { hookTypeEnv := "Stop", stdin := some c7data, now := 200, cwd := "/p",
    failTx := some 1, logOk := true }

/-- C7 counterexample: a `Stop` invocation whose single store transaction
fails writes no backup-log line even though the log append itself would
have succeeded, refuting "the log append happens regardless of whether
the store writes succeeded". -/
theorem c7_counterexample :
    storePhase c7env c7data emptyDB = Except.error emptyDB
    ∧ runHook c7env emptyDB [] = (emptyDB, [], 0)
    ∧ c7env.logOk = true := ⟨rfl, rfl, rfl⟩

/-- C7 amended: the backup-log append runs only on the success path of the
store writes; any store failure skips it (and the append's own failure is
swallowed too), while the process exits 0 in every case. -/
theorem c7_log_gated_on_store (env : HookEnv) (db : DB) (log : List LogLine)
    (data : JObj) (h0 : env.failTx ≠ some 0) (hstdin : env.stdin = some data) :
    (∀ dbF, storePhase env data db = Except.error dbF →
        runHook env db log = (dbF, log, 0))
    ∧ (∀ dbF, storePhase env data db = Except.ok dbF → env.logOk = true →
        runHook env db log =
          (dbF, log ++ [{ timestamp := env.now,
                          hook_type := resolveHookType env.hookTypeEnv data,
                          project := env.cwd, data := data }], 0))
    ∧ (∀ dbF, storePhase env data db = Except.ok dbF → env.logOk = false →
        runHook env db log = (dbF, log, 0)) := by
  obtain ⟨he, hk⟩ := runHook_cases env db log data h0 hstdin
  refine ⟨he, ?_, ?_⟩
  · intro dbF hsp hl
    rw [hk dbF hsp, hl]
    rfl
  · intro dbF hsp hl
    rw [hk dbF hsp, hl]
    rfl

theorem c7_witness :
    runHook c7env emptyDB [] = (emptyDB, [], 0) :=
  (c7_log_gated_on_store c7env emptyDB [] c7data (by decide) rfl).1 emptyDB rfl

def c8data : JObj :=
  [("session_id", JVal.str "s8"), ("tool_name", JVal.str "Read"),
   ("tool_input", JVal.obj [])]

def c8env : HookEnv :=
  { hookTypeEnv := "", stdin := some c8data, now := 300, cwd := "/p",
    failTx := some 2, logOk := true }

/-- C8 counterexample: a PreToolUse invocation whose second store
transaction (the ensure-open) fails leaves a committed ToolUsageRecord
for session `s8` with no Session row at all — the usage insert and the
ensure-open are separate transactions and the usage insert commits
first, refuting both the claimed atomicity and the claimed order. -/
theorem c8_counterexample :
    (runHook c8env emptyDB []).1.tool_usage.map (fun r => r.session_id) =
      [JVal.str "s8"]
    ∧ (runHook c8env emptyDB []).1.sessions = [] := ⟨rfl, rfl⟩

/-- C8 amended: the usage insert (together with any command insert) and
the ensure-open are two separate transactions committed in that order;
when the second fails, the committed usage row survives with no owning
session row, the backup log is skipped, and the exit status is still 0. -/
theorem c8_split_transactions (env : HookEnv) (data : JObj) (sid : String)
    (db : DB) (log : List LogLine)
    (hfail : env.failTx = some 2) (hstdin : env.stdin = some data)
    (hval : validToolPayload data sid = true)
    (hcls : resolveHookType env.hookTypeEnv data = "PreToolUse" ∨
            resolveHookType env.hookTypeEnv data = "PostToolUse") :
    ∃ u cs,
      runHook env db log =
        ({ db with tool_usage := db.tool_usage ++ [u],
                   commands := db.commands ++ cs }, log, 0)
      ∧ u.session_id = JVal.str sid := by
  obtain ⟨u, cs, htu, hu⟩ := log_tool_usage_ok env.now env.cwd data sid db hval
  have htx1 : txRun env 1 (log_tool_usage env.now env.cwd data db) =
      Except.ok { db with tool_usage := db.tool_usage ++ [u],
                          commands := db.commands ++ cs } := by
    unfold txRun
    rw [hfail, htu]
    rfl
  have htx2 : ∀ dbX, txRun env 2 (log_session_event env.now env.cwd data "start" dbX) =
      Except.error () := by
    intro dbX
    unfold txRun
    rw [hfail]
    rfl
  have hsp : storePhase env data db =
      Except.error { db with tool_usage := db.tool_usage ++ [u],
                             commands := db.commands ++ cs } := by
    rw [storePhase_tool env data db hcls, htx1]
    show (match txRun env 2 (log_session_event env.now env.cwd data "start"
            { db with tool_usage := db.tool_usage ++ [u],
                      commands := db.commands ++ cs }) with
          | Except.error _ =>
              Except.error { db with tool_usage := db.tool_usage ++ [u],
                                     commands := db.commands ++ cs }
          | Except.ok db2 => Except.ok db2) =
      Except.error { db with tool_usage := db.tool_usage ++ [u],
                             commands := db.commands ++ cs }
    rw [htx2]
  have h0 : env.failTx ≠ some 0 := by rw [hfail]; decide
  exact ⟨u, cs, (runHook_cases env db log data h0 hstdin).1 _ hsp, hu⟩

theorem c8_witness :
    ∃ u cs,
      runHook c8env emptyDB [] =
        ({ emptyDB with tool_usage := emptyDB.tool_usage ++ [u],
                        commands := emptyDB.commands ++ cs }, [], 0)
      ∧ u.session_id = JVal.str "s8" :=
  c8_split_transactions c8env c8data "s8" emptyDB [] rfl rfl rfl (Or.inl rfl)

def storeOut : Except DB DB → DB
  | Except.error d => d
  | Except.ok d => d

theorem txRun_ok (env : HookEnv) (i : Nat) (act : Except Unit DB) (d : DB)
    (h : txRun env i act = Except.ok d) : act = Except.ok d := by
  unfold txRun at h
  by_cases hc : (env.failTx == some i) = true
  · rw [if_pos hc] at h; cases h
  · rwa [if_neg hc] at h

theorem runHook_fst (env : HookEnv) (db : DB) (log : List LogLine) (data : JObj)
    (h0 : env.failTx ≠ some 0) (hstdin : env.stdin = some data) :
    (runHook env db log).1 = storeOut (storePhase env data db) := by
  obtain ⟨he, hk⟩ := runHook_cases env db log data h0 hstdin
  cases hsp : storePhase env data db with
  | error dbF => rw [he dbF hsp]; rfl
  | ok dbF =>
      rw [hk dbF hsp]
      by_cases hl : env.logOk = true <;> simp [hl, storeOut]

theorem ltu_sessions_of_ok (now : Int) (cwd : String) (data : JObj) (db db' : DB)
    (h : log_tool_usage now cwd data db = Except.ok db') :
    db'.sessions = db.sessions ∧ db'.events = db.events := by
  unfold log_tool_usage at h
  repeat' split at h
  all_goals cases h
  all_goals exact ⟨rfl, rfl⟩

theorem lse_start_sessions_of_ok (now : Int) (cwd : String) (data : JObj)
    (db db' : DB) (h : log_session_event now cwd data "start" db = Except.ok db') :
    db'.sessions = db.sessions ∨ ∃ row, db'.sessions = db.sessions ++ [row] := by
  unfold log_session_event at h
  cases hs : jget data "session_id" with
  | none => rw [hs] at h; cases h
  | some sid =>
      rw [hs] at h
      simp only [beq_self_eq_true, if_true] at h
      by_cases hb : sqlBindable sid = true
      · rw [if_pos hb] at h
        by_cases hex : db.sessions.any (fun r => sqlEq r.session_id sid) = true
        · rw [if_pos hex] at h
          cases h
          left
          rfl
        · rw [if_neg hex] at h
          by_cases htp : sqlBindable ((jget data "transcript_path").getD (JVal.str "")) =
              true
          · rw [if_pos htp] at h
            cases h
            right
            exact ⟨openedRow now cwd data sid, rfl⟩
          · rw [if_neg htp] at h
            cases h
      · rw [if_neg hb] at h
        cases h

theorem storePhase_tool_fresh (env : HookEnv) (data : JObj) (sid : String) (db : DB)
    (hfail : env.failTx = none)
    (hval : validToolPayload data sid = true)
    (hcls : resolveHookType env.hookTypeEnv data = "PreToolUse" ∨
            resolveHookType env.hookTypeEnv data = "PostToolUse")
    (hfr : db.sessions.any (fun r => sqlEq r.session_id (JVal.str sid)) = false) :
    ∃ u cs, storePhase env data db = Except.ok
      { db with
        sessions := db.sessions ++ [openedRow env.now env.cwd data (JVal.str sid)],
        tool_usage := db.tool_usage ++ [u],
        commands := db.commands ++ cs,
        events := db.events ++
          [genericEventRow env.now env.cwd data (JVal.str sid) "start"] } := by
  obtain ⟨u, cs, htu, _⟩ := log_tool_usage_ok env.now env.cwd data sid db hval
  have hsid := valid_sid data sid hval
  refine ⟨u, cs, ?_⟩
  rw [storePhase_tool env data db hcls, txRun_none env 1 _ hfail, htu]
  show (match txRun env 2 (log_session_event env.now env.cwd data "start"
          { db with tool_usage := db.tool_usage ++ [u],
                    commands := db.commands ++ cs }) with
        | Except.error _ =>
            Except.error { db with tool_usage := db.tool_usage ++ [u],
                                   commands := db.commands ++ cs }
        | Except.ok db2 => Except.ok db2) =
    Except.ok
      { db with
        sessions := db.sessions ++ [openedRow env.now env.cwd data (JVal.str sid)],
        tool_usage := db.tool_usage ++ [u],
        commands := db.commands ++ cs,
        events := db.events ++
          [genericEventRow env.now env.cwd data (JVal.str sid) "start"] }
  rw [txRun_none env 2 _ hfail,
    lse_start_fresh env.now env.cwd data (JVal.str sid)
      { db with tool_usage := db.tool_usage ++ [u], commands := db.commands ++ cs }
      hsid rfl (valid_transcript data sid hval) hfr]

theorem storePhase_tool_existing (env : HookEnv) (data : JObj) (sid : String) (db : DB)
    (hfail : env.failTx = none)
    (hval : validToolPayload data sid = true)
    (hcls : resolveHookType env.hookTypeEnv data = "PreToolUse" ∨
            resolveHookType env.hookTypeEnv data = "PostToolUse")
    (hex : db.sessions.any (fun r => sqlEq r.session_id (JVal.str sid)) = true) :
    ∃ u cs, storePhase env data db = Except.ok
      { db with
        tool_usage := db.tool_usage ++ [u],
        commands := db.commands ++ cs,
        events := db.events ++
          [genericEventRow env.now env.cwd data (JVal.str sid) "start"] } := by
  obtain ⟨u, cs, htu, _⟩ := log_tool_usage_ok env.now env.cwd data sid db hval
  have hsid := valid_sid data sid hval
  refine ⟨u, cs, ?_⟩
  rw [storePhase_tool env data db hcls, txRun_none env 1 _ hfail, htu]
  show (match txRun env 2 (log_session_event env.now env.cwd data "start"
          { db with tool_usage := db.tool_usage ++ [u],
                    commands := db.commands ++ cs }) with
        | Except.error _ =>
            Except.error { db with tool_usage := db.tool_usage ++ [u],
                                   commands := db.commands ++ cs }
        | Except.ok db2 => Except.ok db2) =
    Except.ok
      { db with
        tool_usage := db.tool_usage ++ [u],
        commands := db.commands ++ cs,
        events := db.events ++
          [genericEventRow env.now env.cwd data (JVal.str sid) "start"] }
  rw [txRun_none env 2 _ hfail,
    lse_start_existing env.now env.cwd data (JVal.str sid)
      { db with tool_usage := db.tool_usage ++ [u], commands := db.commands ++ cs }
      hsid rfl hex]

def c5data : JObj :=
  [("session_id", JVal.str "s5"), ("tool_name", JVal.str "Read"),
   ("tool_input", JVal.obj [])]

/-- C5 counterexample: with the out-of-band hint present and set to
`Stop`, a payload carrying `tool_name` and `tool_input` is dispatched as
`PreToolUse` — shape inference overrides the hint, refuting "the ingestor
uses the hint's value as the event kind for dispatch". -/
theorem c5_counterexample :
    ("Stop" : String) ≠ ""
    ∧ resolveHookType "Stop" c5data = "PreToolUse"
    ∧ ("PreToolUse" : String) ≠ "Stop" := ⟨by decide, rfl, by decide⟩

/-- C5 amended: shape inference takes precedence over the hint.  When the
payload carries both `tool_name` and `tool_input`, the resolved kind is
`PostToolUse` or `PreToolUse` according to `tool_response`, whatever the
hint; the hint is used only when that shape is absent.  Consequently a
tool-shaped payload never runs the close branch: existing session rows
are never mutated, only possibly appended to. -/
theorem c5_shape_overrides_hint (hint : String) (data : JObj) :
    ((jget data "tool_name").isSome = true → (jget data "tool_input").isSome = true →
       resolveHookType hint data =
         (if (jget data "tool_response").isSome then "PostToolUse" else "PreToolUse"))
    ∧ (((jget data "tool_name").isSome && (jget data "tool_input").isSome) = false →
       resolveHookType hint data = hint)
    ∧ (∀ env db log, env.stdin = some data → env.hookTypeEnv = hint →
        (jget data "tool_name").isSome = true → (jget data "tool_input").isSome = true →
        ∃ tail, (runHook env db log).1.sessions = db.sessions ++ tail) := by
  refine ⟨?_, ?_, ?_⟩
  · intro h1 h2
    unfold resolveHookType
    rw [h1, h2]
    rfl
  · intro h
    unfold resolveHookType
    rw [h]
    rfl
  · intro env db log hstdin hhint h1 h2
    have hcls : resolveHookType env.hookTypeEnv data = "PreToolUse" ∨
        resolveHookType env.hookTypeEnv data = "PostToolUse" := by
      unfold resolveHookType
      rw [h1, h2]
      by_cases h3 : (jget data "tool_response").isSome = true
      · rw [h3]; right; rfl
      · simp only [Bool.not_eq_true] at h3
        rw [h3]; left; rfl
    by_cases h0 : env.failTx = some 0
    · refine ⟨[], ?_⟩
      unfold runHook
      rw [h0]
      simp
    · rw [runHook_fst env db log data h0 hstdin,
        storePhase_tool env data db hcls]
      cases htx1 : txRun env 1 (log_tool_usage env.now env.cwd data db) with
      | error e => exact ⟨[], by simp [storeOut]⟩
      | ok db1 =>
          obtain ⟨hdb1, _⟩ :=
            ltu_sessions_of_ok env.now env.cwd data db db1 (txRun_ok env 1 _ db1 htx1)
          cases htx2 : txRun env 2 (log_session_event env.now env.cwd data "start" db1) with
          | error e =>
              refine ⟨[], ?_⟩
              show (storeOut (match txRun env 2
                  (log_session_event env.now env.cwd data "start" db1) with
                | Except.error _ => Except.error db1
                | Except.ok db2 => Except.ok db2)).sessions = db.sessions ++ []
              rw [htx2]
              show db1.sessions = db.sessions ++ []
              rw [hdb1, List.append_nil]
          | ok db2 =>
              rcases lse_start_sessions_of_ok env.now env.cwd data db1 db2
                  (txRun_ok env 2 _ db2 htx2) with hsame | ⟨row, happ⟩
              · refine ⟨[], ?_⟩
                show (storeOut (match txRun env 2
                    (log_session_event env.now env.cwd data "start" db1) with
                  | Except.error _ => Except.error db1
                  | Except.ok db2 => Except.ok db2)).sessions = db.sessions ++ []
                rw [htx2]
                show db2.sessions = db.sessions ++ []
                rw [hsame, hdb1, List.append_nil]
              · refine ⟨[row], ?_⟩
                show (storeOut (match txRun env 2
                    (log_session_event env.now env.cwd data "start" db1) with
                  | Except.error _ => Except.error db1
                  | Except.ok db2 => Except.ok db2)).sessions = db.sessions ++ [row]
                rw [htx2]
                show db2.sessions = db.sessions ++ [row]
                rw [happ, hdb1]

theorem c5_witness :
    resolveHookType "Stop" c5data =
      (if (jget c5data "tool_response").isSome then "PostToolUse" else "PreToolUse") :=
  (c5_shape_overrides_hint "Stop" c5data).1 rfl rfl

def c6data : JObj := [("session_id", JVal.str "s6")]

def c6envU : HookEnv :=
  { hookTypeEnv := "", stdin := some c6data, now := 100, cwd := "/p",
    failTx := none, logOk := true }

def c6envS : HookEnv :=
  { hookTypeEnv := "Stop", stdin := some c6data, now := 100, cwd := "/p",
    failTx := none, logOk := true }

/-- C6 counterexample: an invocation with no hint and no tool shape
(resolved kind is the empty string, i.e. Unknown) inserts no events row at
all, and a `Stop` invocation stores the branch tag `stop`, not the
resolved kind `Stop` — both refuting "every hook invocation inserts
exactly one GenericEvent row carrying the resolved event kind". -/
theorem c6_counterexample :
    (runHook c6envU emptyDB []).1.events = []
    ∧ (runHook c6envS emptyDB []).1.events.map (fun r => r.event_type) = ["stop"]
    ∧ resolveHookType "Stop" c6data = "Stop"
    ∧ ("stop" : String) ≠ "Stop" := ⟨rfl, rfl, rfl, by decide⟩

/-- C6 amended: when the resolved kind is one of the five recognized
kinds and the writes succeed (all store transactions run and the bound
payload values are bindable scalars), exactly one events row is inserted,
carrying
the full serialized payload and the project path, but tagged with the
branch's own label (`start` for both PreToolUse and PostToolUse, `stop`,
`subagent_stop`, `notification`), not the resolved kind; an invocation of
any unrecognized kind (including Unknown) inserts no events row. -/
theorem c6_generic_event_rows (env : HookEnv) (db : DB) (log : List LogLine)
    (data : JObj) (hfail : env.failTx = none) (hstdin : env.stdin = some data) :
    (∀ sidv, jget data "session_id" = some sidv → sqlBindable sidv = true →
       resolveHookType env.hookTypeEnv data = "Stop" →
       (runHook env db log).1.events =
         db.events ++ [genericEventRow env.now env.cwd data sidv "stop"])
    ∧ (∀ sidv, jget data "session_id" = some sidv → sqlBindable sidv = true →
        resolveHookType env.hookTypeEnv data = "SubagentStop" →
        (runHook env db log).1.events =
          db.events ++ [genericEventRow env.now env.cwd data sidv "subagent_stop"])
    ∧ (∀ sidv, jget data "session_id" = some sidv → sqlBindable sidv = true →
        resolveHookType env.hookTypeEnv data = "Notification" →
        (runHook env db log).1.events =
          db.events ++ [genericEventRow env.now env.cwd data sidv "notification"])
    ∧ (∀ sid : String, validToolPayload data sid = true →
        (resolveHookType env.hookTypeEnv data = "PreToolUse" ∨
         resolveHookType env.hookTypeEnv data = "PostToolUse") →
        (runHook env db log).1.events =
          db.events ++ [genericEventRow env.now env.cwd data (JVal.str sid) "start"])
    ∧ (resolveHookType env.hookTypeEnv data ∉
        (["PreToolUse", "PostToolUse", "Stop", "SubagentStop", "Notification"] :
          List String) →
        (runHook env db log).1.events = db.events) := by
  have h0 : env.failTx ≠ some 0 := by rw [hfail]; simp
  have hfst := runHook_fst env db log data h0 hstdin
  refine ⟨?_, ?_, ?_, ?_, ?_⟩
  · intro sidv hsid hb hres
    rw [hfst, storePhase_stop env data db hres, txRun_none env 1 _ hfail,
      lse_close env.now env.cwd data sidv db "stop" (Or.inl rfl) hsid hb]
    rfl
  · intro sidv hsid hb hres
    rw [hfst, storePhase_sub env data db hres, txRun_none env 1 _ hfail,
      lse_close env.now env.cwd data sidv db "subagent_stop" (Or.inr rfl) hsid hb]
    rfl
  · intro sidv hsid hb hres
    rw [hfst, storePhase_notif env data db hres, txRun_none env 1 _ hfail]
    unfold notification_event
    rw [hsid]
    simp [hb, storeOut]
  · intro sid hval hcls
    by_cases hex : db.sessions.any (fun r => sqlEq r.session_id (JVal.str sid)) = true
    · obtain ⟨u, cs, hsp⟩ := storePhase_tool_existing env data sid db hfail hval hcls hex
      rw [hfst, hsp]
      rfl
    · rw [Bool.not_eq_true] at hex
      obtain ⟨u, cs, hsp⟩ := storePhase_tool_fresh env data sid db hfail hval hcls hex
      rw [hfst, hsp]
      rfl
  · intro hun
    rw [hfst, storePhase_unknown env data db hun]
    rfl

theorem c6_witness :
    (runHook c6envS emptyDB []).1.events =
      emptyDB.events ++ [genericEventRow 100 "/p" c6data (JVal.str "s6") "stop"] :=
  (c6_generic_event_rows c6envS emptyDB [] c6data rfl rfl).1 (JVal.str "s6") rfl rfl rfl

theorem runHook_tool_fresh (env : HookEnv) (data : JObj) (sid : String) (db : DB)
    (log : List LogLine)
    (hfail : env.failTx = none) (hstdin : env.stdin = some data)
    (hval : validToolPayload data sid = true)
    (hcls : resolveHookType env.hookTypeEnv data = "PreToolUse" ∨
            resolveHookType env.hookTypeEnv data = "PostToolUse")
    (hfr : db.sessions.any (fun r => sqlEq r.session_id (JVal.str sid)) = false) :
    (runHook env db log).1.sessions =
      db.sessions ++ [openedRow env.now env.cwd data (JVal.str sid)] := by
  have h0 : env.failTx ≠ some 0 := by rw [hfail]; simp
  obtain ⟨u, cs, hsp⟩ := storePhase_tool_fresh env data sid db hfail hval hcls hfr
  rw [runHook_fst env db log data h0 hstdin, hsp]
  rfl

theorem runHook_tool_existing (env : HookEnv) (data : JObj) (sid : String) (db : DB)
    (log : List LogLine)
    (hfail : env.failTx = none) (hstdin : env.stdin = some data)
    (hval : validToolPayload data sid = true)
    (hcls : resolveHookType env.hookTypeEnv data = "PreToolUse" ∨
            resolveHookType env.hookTypeEnv data = "PostToolUse")
    (hex : db.sessions.any (fun r => sqlEq r.session_id (JVal.str sid)) = true) :
    (runHook env db log).1.sessions = db.sessions := by
  have h0 : env.failTx ≠ some 0 := by rw [hfail]; simp
  obtain ⟨u, cs, hsp⟩ := storePhase_tool_existing env data sid db hfail hval hcls hex
  rw [runHook_fst env db log data h0 hstdin, hsp]
  rfl

theorem runHookSeq_keeps (sid : String) (envs : List HookEnv) :
    ∀ (db : DB) (log : List LogLine),
    (∀ e ∈ envs, e.failTx = none ∧ ∃ data, e.stdin = some data ∧
        validToolPayload data sid = true ∧
        (resolveHookType e.hookTypeEnv data = "PreToolUse" ∨
         resolveHookType e.hookTypeEnv data = "PostToolUse")) →
    db.sessions.any (fun r => sqlEq r.session_id (JVal.str sid)) = true →
    (runHookSeq envs (db, log)).1.sessions = db.sessions := by
  induction envs with
  | nil =>
      intro db log _ _
      rfl
  | cons e rest ih =>
      intro db log hval hex
      obtain ⟨hf, data, hstdin, hv, hcls⟩ := hval e (List.mem_cons_self e rest)
      have hses : (runHook e db log).1.sessions = db.sessions :=
        runHook_tool_existing e data sid db log hf hstdin hv hcls hex
      have hex2 : (runHook e db log).1.sessions.any
          (fun r => sqlEq r.session_id (JVal.str sid)) = true := by
        rw [hses]; exact hex
      show (runHookSeq rest ((runHook e db log).1, (runHook e db log).2.1)).1.sessions =
        db.sessions
      rw [ih (runHook e db log).1 (runHook e db log).2.1
          (fun e2 he2 => hval e2 (List.mem_cons_of_mem e he2)) hex2, hses]

/-- C1: a run of N >= 1 valid PreToolUse/PostToolUse ingestions for the
same fresh session id creates exactly one Session row; the first
ingestion inserts it, every later ensure-open is a no-op on the sessions
table, leaving the row (and every field of it) exactly as the first
ingestion wrote it. -/
theorem c1_session_open_idempotent (sid : String) (envs : List HookEnv)
    (db : DB) (log : List LogLine) (hne : envs ≠ [])
    (hval : ∀ e ∈ envs, e.failTx = none ∧ ∃ data, e.stdin = some data ∧
        validToolPayload data sid = true ∧
        (resolveHookType e.hookTypeEnv data = "PreToolUse" ∨
         resolveHookType e.hookTypeEnv data = "PostToolUse"))
    (hfresh : db.sessions.any (fun r => sqlEq r.session_id (JVal.str sid)) = false) :
    ∃ row, (runHookSeq envs (db, log)).1.sessions = db.sessions ++ [row]
      ∧ sqlEq row.session_id (JVal.str sid) = true
      ∧ (runHookSeq envs (db, log)).1.sessions.countP
          (fun r => sqlEq r.session_id (JVal.str sid)) = 1
      ∧ (runHook (envs.head hne) db log).1.sessions = db.sessions ++ [row] := by
  cases envs with
  | nil => exact absurd rfl hne
  | cons e rest =>
      obtain ⟨hf, data, hstdin, hv, hcls⟩ := hval e (List.mem_cons_self e rest)
      have hrowsid : sqlEq (openedRow e.now e.cwd data (JVal.str sid)).session_id
          (JVal.str sid) = true := by
        simp [openedRow, sqlEq]
      have h1 : (runHook e db log).1.sessions =
          db.sessions ++ [openedRow e.now e.cwd data (JVal.str sid)] :=
        runHook_tool_fresh e data sid db log hf hstdin hv hcls hfresh
      have hex2 : (runHook e db log).1.sessions.any
          (fun r => sqlEq r.session_id (JVal.str sid)) = true := by
        rw [h1]
        exact List.any_eq_true.mpr
          ⟨openedRow e.now e.cwd data (JVal.str sid),
           List.mem_append_right _ (List.mem_singleton.mpr rfl), hrowsid⟩
      have hseq : (runHookSeq (e :: rest) (db, log)).1.sessions =
          db.sessions ++ [openedRow e.now e.cwd data (JVal.str sid)] := by
        show (runHookSeq rest ((runHook e db log).1, (runHook e db log).2.1)).1.sessions =
          db.sessions ++ [openedRow e.now e.cwd data (JVal.str sid)]
        rw [runHookSeq_keeps sid rest (runHook e db log).1 (runHook e db log).2.1
            (fun e2 he2 => hval e2 (List.mem_cons_of_mem e he2)) hex2, h1]
      refine ⟨openedRow e.now e.cwd data (JVal.str sid), hseq, hrowsid, ?_, h1⟩
      rw [hseq, List.countP_append]
      have hz : db.sessions.countP (fun r => sqlEq r.session_id (JVal.str sid)) = 0 := by
        rw [List.countP_eq_zero]
        intro r hr
        simp only [List.any_eq_false] at hfresh
        exact hfresh r hr
      rw [hz]
      simp [List.countP_cons, hrowsid]

def c1data : JObj :=
  [("session_id", JVal.str "s1"), ("tool_name", JVal.str "Read"),
   ("tool_input", JVal.obj [])]

def c1env : HookEnv :=
  { hookTypeEnv := "", stdin := some c1data, now := 10, cwd := "/p",
    failTx := none, logOk := true }

theorem c1_witness :
    ∃ row, (runHookSeq [c1env, c1env, c1env] (emptyDB, [])).1.sessions =
        emptyDB.sessions ++ [row]
      ∧ sqlEq row.session_id (JVal.str "s1") = true
      ∧ (runHookSeq [c1env, c1env, c1env] (emptyDB, [])).1.sessions.countP
          (fun r => sqlEq r.session_id (JVal.str "s1")) = 1
      ∧ (runHook ([c1env, c1env, c1env].head (by simp)) emptyDB []).1.sessions =
          emptyDB.sessions ++ [row] :=
  c1_session_open_idempotent "s1" [c1env, c1env, c1env] emptyDB [] (by simp)
    (by
      intro e he
      simp only [List.mem_cons, List.not_mem_nil, or_false] at he
      rcases he with rfl | rfl | rfl <;>
        exact ⟨rfl, c1data, rfl, rfl, Or.inl rfl⟩)
    rfl
